import Mathlib

/-!
# Verification of the big-o-tracker complexity inference engine

This file gives a shallow embedding, in Lean 4, of the core of the
big-o-tracker static complexity analyzer:

* the symbolic complexity algebra (`SymbolicComplexity` with `max`,
  `add`, `multiply`) from `src/extension/analyzer/symbolic.py`;
* the recurrence solver (`RecurrenceSolver.solve`) from the same file;
* the built-in operation cost table (`DataStructureCosts.COSTS`);
* the structural feature extractor (`EnhancedCodeVisitor`) and the
  composers `compute_time_complexity` / `compute_space_complexity` from
  `src/extension/analyzer/enhanced_analyzer.py`, embedded as a state
  transformer over a faithful fragment of the Python AST;
* the per-scope fault-handling structure of
  `ASTAnalyzer.visit_FunctionDef` / `analyze_source` from
  `src/extension/analyzer/ast_parser.py` (exceptions modelled as
  `Option`-valued outcomes).

Unbounded Python integers are modelled as `Int` (counters that only ever
grow from 0 as `Nat`), Python `None`-able fields as `Option`, and Python
string truthiness (`None` and `""` are falsy) explicitly where the source
relies on it.  Bookkeeping fields of the visitor that no claim and no
embedded computation ever reads (`input_vars`, `in_recursive_function`,
`in_conditional`, `recursive_calls`, `recursion_depth`,
`sequential_loops`, `description` strings) are elided.
-/

/-- The complexity classes of `ComplexityType` in
`src/extension/analyzer/symbolic.py`. -/
inductive ComplexityType where
  | constant
  | logarithmic
  | sqrt
  | linear
  | linearithmic
  | polynomial
  | exponential
  | factorial
  | multivariate
deriving DecidableEq, Repr, Fintype

/-- A symbolic complexity value (`SymbolicComplexity.__init__`):
an expression class plus base variable, optional polynomial degree and,
for multivariate values, a variable-to-exponent mapping (a Python dict,
modelled as an insertion-ordered association list). -/
structure SymbolicComplexity where
  exprType : ComplexityType
  baseVar : String := "n"
  degree : Option Int := none
  vars : List (String × Int) := []
deriving DecidableEq, Repr

/-- The total-order rank used by `SymbolicComplexity.max`
(the `order` dict, lines 73-83 of `symbolic.py`). -/
def complexityOrder : ComplexityType → Nat
  | .constant => 0
  | .logarithmic => 1
  | .sqrt => 2
  | .linear => 3
  | .linearithmic => 4
  | .polynomial => 5
  | .exponential => 6
  | .factorial => 7
  | .multivariate => 8

/-- `SymbolicComplexity.max`: return `self` when its rank is greater or
equal, otherwise `other`. -/
def SymbolicComplexity.max (a b : SymbolicComplexity) : SymbolicComplexity :=
  if complexityOrder b.exprType ≤ complexityOrder a.exprType then a else b

/-- Python `self.degree or 1`: `None` and `0` are falsy and give `1`. -/
def pyDegreeOrOne : Option Int → Int
  | none => 1
  | some k => if k = 0 then 1 else k

/-- `SymbolicComplexity.multiply`: nested composition, translated guard
by guard from `symbolic.py` lines 89-129.  The final catch-all is
`self.max other`. -/
def SymbolicComplexity.multiply (a b : SymbolicComplexity) : SymbolicComplexity :=
  if a.exprType = .constant then b
  else if b.exprType = .constant then a
  else if a.exprType = .linear ∧ b.exprType = .linear ∧ a.baseVar = b.baseVar then
    { exprType := .polynomial, baseVar := a.baseVar, degree := some 2 }
  else if a.exprType = .linear ∧ b.exprType = .logarithmic ∧ a.baseVar = b.baseVar then
    { exprType := .linearithmic, baseVar := a.baseVar }
  else if a.exprType = .linear ∧ b.exprType = .linear ∧ a.baseVar ≠ b.baseVar then
    { exprType := .multivariate, vars := [(a.baseVar, 1), (b.baseVar, 1)] }
  else if a.exprType = .polynomial ∧ b.exprType = .polynomial ∧ a.baseVar = b.baseVar then
    { exprType := .polynomial, baseVar := a.baseVar,
      degree := some (pyDegreeOrOne a.degree + pyDegreeOrOne b.degree) }
  else a.max b

/-- `SymbolicComplexity.add`: sequential composition, defined as `max`. -/
def SymbolicComplexity.add (a b : SymbolicComplexity) : SymbolicComplexity :=
  a.max b

/-- `str()` of a Python int / `None` in an f-string
(used by `SymbolicComplexity.__str__` for the polynomial degree). -/
def pyShowOptInt : Option Int → String
  | none => "None"
  | some k => toString k

/-- Insert a variable-exponent pair into a list sorted by variable name
(ascending), used to model Python `sorted(self.vars.items())`. -/
def insertVarSorted (p : String × Int) : List (String × Int) → List (String × Int)
  | [] => [p]
  | q :: rest => if p.1 < q.1 then p :: q :: rest else q :: insertVarSorted p rest

/-- Sort an association list by key, modelling `sorted(dict.items())`. -/
def sortVarList : List (String × Int) → List (String × Int)
  | [] => []
  | p :: rest => insertVarSorted p (sortVarList rest)

/-- One multivariate term: `var` when the exponent is 1, otherwise
`var^deg` (`SymbolicComplexity.__str__`, lines 57-62). -/
def multivariateTerm (p : String × Int) : String :=
  if p.2 = 1 then p.1 else p.1 ++ "^" ++ toString p.2

/-- `SymbolicComplexity.__str__`: the Big-O notation string. -/
def SymbolicComplexity.toBigO (c : SymbolicComplexity) : String :=
  match c.exprType with
  | .constant => "O(1)"
  | .logarithmic => "O(log " ++ c.baseVar ++ ")"
  | .sqrt => "O(√" ++ c.baseVar ++ ")"
  | .linear => "O(" ++ c.baseVar ++ ")"
  | .linearithmic => "O(" ++ c.baseVar ++ " log " ++ c.baseVar ++ ")"
  | .polynomial =>
      if c.degree = some 2 then "O(" ++ c.baseVar ++ "^2)"
      else "O(" ++ c.baseVar ++ "^" ++ pyShowOptInt c.degree ++ ")"
  | .exponential => "O(2^" ++ c.baseVar ++ ")"
  | .factorial => "O(" ++ c.baseVar ++ "!)"
  | .multivariate =>
      let terms := (sortVarList c.vars).map multivariateTerm
      match terms with
      | [t] => "O(" ++ t ++ ")"
      | _ => "O(" ++ String.intercalate " * " terms ++ ")"

/-- `SymbolicComplexity(ComplexityType.CONSTANT)` with default fields. -/
def scConstant : SymbolicComplexity := { exprType := .constant }

/-- `SymbolicComplexity(ComplexityType.LINEAR)` with default fields. -/
def scLinear : SymbolicComplexity := { exprType := .linear }

/-- `SymbolicComplexity(ComplexityType.LOGARITHMIC)` with default fields. -/
def scLogarithmic : SymbolicComplexity := { exprType := .logarithmic }

/-- `SymbolicComplexity(ComplexityType.LINEARITHMIC)` with default fields. -/
def scLinearithmic : SymbolicComplexity := { exprType := .linearithmic }

/-- `SymbolicComplexity(ComplexityType.EXPONENTIAL)` with default fields. -/
def scExponential : SymbolicComplexity := { exprType := .exponential }

/-- `SymbolicComplexity(ComplexityType.FACTORIAL)` with default fields. -/
def scFactorial : SymbolicComplexity := { exprType := .factorial }

/-- Python `s.startswith(p)`. -/
def pyStartsWith (s p : String) : Bool :=
  p.data.isPrefixOf s.data

/-- The shared tail of `RecurrenceSolver.solve` (`symbolic.py` lines
189-198): a late special case for linear 2-branch `n-1` recursion, then
the generic fallback. -/
def solveTail (recurrenceType : String) (branchingFactor : Nat)
    (problemReduction : String) : SymbolicComplexity :=
  if recurrenceType = "linear" ∧ 2 ≤ branchingFactor ∧ problemReduction = "n-1" then
    scExponential
  else if 2 ≤ branchingFactor then scExponential
  else scLinear

/-- `RecurrenceSolver.solve`: map a classified recurrence to a closed
form.  Translated branch by branch from `symbolic.py` lines 140-198;
absence of a `return` in a Python branch falls through to `solveTail`. -/
def RecurrenceSolver.solve (recurrenceType : String) (branchingFactor : Nat)
    (problemReduction : String) (workPerLevel : Option SymbolicComplexity) :
    SymbolicComplexity :=
  let work := workPerLevel.getD scConstant
  if recurrenceType = "linear" then
    if problemReduction = "n-1" ∧ branchingFactor = 1 then scLinear
    else if problemReduction = "n-1" ∧ 2 ≤ branchingFactor then scExponential
    else if pyStartsWith problemReduction "n/" then scLogarithmic
    else solveTail recurrenceType branchingFactor problemReduction
  else if recurrenceType = "divide_conquer" then
    if branchingFactor = 2 ∧ problemReduction = "n/2" ∧ work.exprType = .linear then
      scLinearithmic
    else if branchingFactor = 2 ∧ problemReduction = "n/2" ∧ work.exprType = .constant then
      scLinear
    else if branchingFactor = 1 ∧ problemReduction = "n/2" then scLogarithmic
    else solveTail recurrenceType branchingFactor problemReduction
  else if recurrenceType = "backtracking" then
    if problemReduction = "n-1" ∧ branchingFactor = 2 then scExponential
    else if problemReduction = "n-1" ∧ 2 < branchingFactor then scExponential
    else if problemReduction = "n-1" ∧ 10 < branchingFactor then scFactorial
    else solveTail recurrenceType branchingFactor problemReduction
  else solveTail recurrenceType branchingFactor problemReduction

/-- `DataStructureCosts.COSTS`: the static cost table, key for key. -/
def DataStructureCosts.getCost : String → Option SymbolicComplexity
  | "list.append" => some scConstant
  | "list.pop" => some scConstant
  | "list.pop(0)" => some scLinear
  | "list.insert(0)" => some scLinear
  | "list.sort" => some scLinearithmic
  | "list.index" => some scLinear
  | "list.count" => some scLinear
  | "dict.get" => some scConstant
  | "dict.set" => some scConstant
  | "dict.__getitem__" => some scConstant
  | "dict.__setitem__" => some scConstant
  | "set.add" => some scConstant
  | "set.remove" => some scConstant
  | "set.intersection" => some scLinear
  | "str.find" => some scLinear
  | "str.replace" => some scLinear
  | "str.split" => some scLinear
  | "sorted" => some scLinearithmic
  | "max" => some scLinear
  | "min" => some scLinear
  | "sum" => some scLinear
  | "len" => some scConstant
  | _ => none

/-!
## The syntax-tree fragment

A faithful fragment of the Python `ast` node shapes that
`EnhancedCodeVisitor` inspects: names, constants, binary operations,
calls, attribute accesses, subscripts, list literals and comparisons;
function definitions, `for`/`while` loops, conditionals, `return`,
expression statements, assignments and augmented assignments.
Subscript index expressions, `for`/`while` `else` clauses, decorators
and parameter lists are elided (the visitor never inspects them for the
properties proved here), and function names are assumed free of `.`
(guaranteed by the Python grammar). -/

/-- Binary operator kinds (`ast.Add`, `ast.Sub`, ...). -/
inductive PyOp where
  | add
  | sub
  | mult
  | div
  | floordiv
  | other
deriving DecidableEq, Repr

mutual
/-- Python expression nodes (the fragment the analyzer inspects). -/
inductive PyExpr where
  | ename (id : String)
  | econst (v : Int)
  | ebinop (op : PyOp) (l r : PyExpr)
  | ecall (f : PyExpr) (args : List PyExpr)
  | eattr (v : PyExpr) (attr : String)
  | esubscript (v : PyExpr)
  | elist (elts : List PyExpr)
  | ecompare (l : PyExpr) (rs : List PyExpr)
deriving Repr

/-- Python statement nodes (the fragment the analyzer inspects). -/
inductive PyStmt where
  | sfunc (name : String) (body : List PyStmt)
  | sfor (target : PyExpr) (iter : PyExpr) (body : List PyStmt)
  | swhile (test : PyExpr) (body : List PyStmt)
  | sif (test : PyExpr) (body orelse : List PyStmt)
  | sreturn (v : Option PyExpr)
  | sexpr (e : PyExpr)
  | sassign (targets : List PyExpr) (v : PyExpr)
  | saugassign (target : PyExpr) (op : PyOp) (v : PyExpr)
  | spass
deriving Repr
end

/-- `LoopInfo`: one recorded loop (`enhanced_analyzer.py` lines 10-15).
`bound_var` is declared but left unassigned in Python unless set, hence
`Option`; `inner_complexity` is never assigned or read and is elided. -/
structure LoopInfo where
  boundVar : Option String := none
  boundType : Option String := none
  isNested : Bool := false
deriving DecidableEq, Repr

/-- `RecursionInfo` (`enhanced_analyzer.py` lines 18-25).
`has_backtracking_pattern` is never read and is elided. -/
structure RecursionInfo where
  branchingFactor : Nat := 0
  problemReduction : Option String := none
  recurrenceType : Option String := none
  workPerLevel : Option SymbolicComplexity := none
deriving DecidableEq, Repr

/-- The mutable state of `EnhancedCodeVisitor` (`enhanced_analyzer.py`
lines 28-63), restricted to the fields the traversal and the composers
read. -/
structure EnhancedCodeVisitor where
  funcName : Option String := none
  loops : List LoopInfo := []
  currentLoopDepth : Nat := 0
  recursionInfo : RecursionInfo := {}
  operationCosts : List SymbolicComplexity := []
  auxiliarySpace : List SymbolicComplexity := []
  branchComplexities : List SymbolicComplexity := []
  hasMutableState : Bool := false
  hasUndoOperations : Bool := false
  hasBinarySearchPattern : Bool := false
deriving DecidableEq, Repr

/-- Python truthiness of an optional string: `None` and `""` are falsy. -/
def pyStrTruthy : Option String → Bool
  | none => false
  | some s => !(s = "")

/-- `self.func_name.split('.')[-1]` when a dot is present, else the name
itself: the last dot-separated component. -/
def lastComponentAux : List Char → List Char → List Char
  | [], acc => acc
  | c :: rest, acc =>
      if c = '.' then lastComponentAux rest []
      else lastComponentAux rest (acc ++ [c])

/-- Last dot-separated component of a qualified name. -/
def lastComponent (s : String) : String :=
  ⟨lastComponentAux s.data []⟩

/-- `EnhancedCodeVisitor._analyze_problem_reduction` applied to one
call argument (`enhanced_analyzer.py` lines 298-339).  The final
`elif isinstance(arg, ast.BinOp)` branch of the source is dead code
(every `BinOp` is consumed by the first branch) and therefore has no
counterpart here. -/
def analyzeReductionArg (arg : PyExpr) (st : EnhancedCodeVisitor) : EnhancedCodeVisitor :=
  match arg with
  | .ebinop op l r =>
      match op with
      | .sub =>
          match l, r with
          | .ename _, .econst 1 =>
              { st with recursionInfo := { st.recursionInfo with problemReduction := some "n-1" } }
          | _, _ => st
      | .add =>
          match l, r with
          | .ename _, .econst 1 =>
              { st with recursionInfo := { st.recursionInfo with problemReduction := some "index+1" } }
          | _, _ => st
      | .div =>
          match r with
          | .econst v =>
              { st with recursionInfo := { st.recursionInfo with
                  problemReduction := some (if v = 2 then "n/2" else "n/" ++ toString v) } }
          | _ => st
      | .floordiv =>
          match r with
          | .econst v =>
              { st with recursionInfo := { st.recursionInfo with
                  problemReduction := some (if v = 2 then "n/2" else "n/" ++ toString v) } }
          | _ => st
      | _ => st
  | .esubscript _ =>
      { st with recursionInfo := { st.recursionInfo with
          problemReduction := some "n/2", recurrenceType := some "divide_conquer" } }
  | .ecall f _ =>
      match f with
      | .ename "len" =>
          if pyStrTruthy st.recursionInfo.problemReduction then st
          else { st with recursionInfo := { st.recursionInfo with problemReduction := some "n-1" } }
      | _ => st
  | _ => st

/-- `_analyze_problem_reduction` over the whole argument list. -/
def analyzeReduction (args : List PyExpr) (st : EnhancedCodeVisitor) : EnhancedCodeVisitor :=
  args.foldl (fun s a => analyzeReductionArg a s) st

/-- Loop-bound classification of a `for` iterator
(`EnhancedCodeVisitor.visit_For`, `enhanced_analyzer.py` lines 126-174):
returns the `bound_var` and `bound_type` assigned to the `LoopInfo`. -/
def classifyForIter (iter : PyExpr) : Option String × Option String :=
  match iter with
  | .ecall (.ename "range") args =>
      match args with
      | [arg] =>
          match arg with
          | .ename id => (some id, some "n")
          | .econst _ => (none, some "constant")
          | .ecall (.ename "len") largs =>
              match largs with
              | [] => (none, some "n")
              | a :: _ =>
                  match a with
                  | .esubscript _ => (some "m", some "m")
                  | _ => (none, some "n")
          | .ecall _ _ => (none, some "n")
          | _ => (none, some "n")
      | [_, second] =>
          match second with
          | .ecall (.ename "len") largs =>
              match largs with
              | [] => (none, none)
              | a :: _ =>
                  match a with
                  | .esubscript _ => (none, some "m")
                  | _ => (none, some "n")
          | .ecall _ _ => (none, none)
          | _ => (none, some "n")
      | [_, _, _] => (none, some "n")
      | _ => (none, none)
  | .ecall _ _ => (none, none)
  | .ename _ => (none, some "n")
  | _ => (none, none)

/-- The three flags of the `check_binary_search_pattern` scan inside
`EnhancedCodeVisitor.visit_While` (`enhanced_analyzer.py` lines
196-227): midpoint assignment seen, left-boundary update seen,
right-boundary update seen. -/
structure BinSearchFlags where
  hasMid : Bool := false
  hasLeft : Bool := false
  hasRight : Bool := false

/-- One assignment target inspected by `check_binary_search_pattern`. -/
def binSearchAssign (target : PyExpr) (value : PyExpr) (f : BinSearchFlags) :
    BinSearchFlags :=
  match target with
  | .ename id =>
      if id = "mid" then
        match value with
        | .ebinop .floordiv _ _ => { f with hasMid := true }
        | _ => f
      else if id = "l" ∨ id = "left" ∨ id = "low" then
        match value with
        | .ebinop .add (.ename "mid") _ => { f with hasLeft := true }
        | _ => f
      else if id = "r" ∨ id = "right" ∨ id = "high" then
        match value with
        | .ebinop .sub (.ename "mid") _ => { f with hasRight := true }
        | _ => f
      else f
  | _ => f

mutual
/-- `check_binary_search_pattern` over one statement. -/
def binSearchStmt (s : PyStmt) (f : BinSearchFlags) : BinSearchFlags :=
  match s with
  | .sassign targets value => targets.foldl (fun acc t => binSearchAssign t value acc) f
  | .sif _ body orelse => binSearchStmts orelse (binSearchStmts body f)
  | _ => f

/-- `check_binary_search_pattern` over a statement list. -/
def binSearchStmts (l : List PyStmt) (f : BinSearchFlags) : BinSearchFlags :=
  match l with
  | [] => f
  | s :: rest => binSearchStmts rest (binSearchStmt s f)
end

/-- The `n //= k` scan over the top-level statements of a `while` body
(`enhanced_analyzer.py` lines 234-237). -/
def whileBodyDivides (body : List PyStmt) : Bool :=
  body.any fun s =>
    match s with
    | .saugassign _ .floordiv _ => true
    | .saugassign _ .div _ => true
    | _ => false

/-- `EnhancedCodeVisitor.visit_Assign` for one target: sequence-mutation
method names on the target set the mutable-state flags, and the assigned
value is re-inspected per target (`enhanced_analyzer.py` lines 367-384).
The visitor does not descend into the assigned value, so calls inside an
assignment are never visited. -/
def assignTargetStep (value : PyExpr) (st : EnhancedCodeVisitor) (target : PyExpr) :
    EnhancedCodeVisitor :=
  let st1 :=
    match target with
    | .eattr _ attr =>
        if attr = "append" ∨ attr = "pop" ∨ attr = "add" ∨ attr = "remove" then
          let s := { st with hasMutableState := true }
          if attr = "pop" ∨ attr = "remove" then { s with hasUndoOperations := true } else s
        else st
    | _ => st
  let st2 :=
    match value with
    | .ecall (.eattr _ a) _ =>
        if a = "copy" ∨ a = "__getitem__" then { st1 with hasMutableState := true } else st1
    | _ => st1
  match value with
  | .ebinop .add l r =>
      match l, r with
      | .elist _, _ => { st2 with hasMutableState := true }
      | _, .elist _ => { st2 with hasMutableState := true }
      | _, _ => st2
  | _ => st2

/-- `EnhancedCodeVisitor.visit_AugAssign` (`enhanced_analyzer.py` lines
359-365): mutation-method names on an attribute target set the flags;
no child is visited. -/
def augassignVisit (target : PyExpr) (st : EnhancedCodeVisitor) : EnhancedCodeVisitor :=
  match target with
  | .eattr _ attr =>
      if attr = "append" ∨ attr = "pop" ∨ attr = "add" ∨ attr = "remove" then
        let s := { st with hasMutableState := true }
        if attr = "pop" ∨ attr = "remove" then { s with hasUndoOperations := true } else s
      else st
  | _ => st

/-- Append one operation cost (`self.operation_costs.append(cost)`). -/
def pushCost (c : SymbolicComplexity) (st : EnhancedCodeVisitor) : EnhancedCodeVisitor :=
  { st with operationCosts := st.operationCosts ++ [c] }

/-- Cost collection of `EnhancedCodeVisitor.visit_Call`
(`enhanced_analyzer.py` lines 249-269): table lookup for
`obj.attr` operations, the unconditional `.sort()` rule, and table
lookup for built-in function names. -/
def visitCallCosts (f : PyExpr) (st : EnhancedCodeVisitor) : EnhancedCodeVisitor :=
  match f with
  | .eattr v attr =>
      let stA :=
        match v with
        | .ename obj =>
            match DataStructureCosts.getCost (obj ++ "." ++ attr) with
            | some c => pushCost c st
            | none => st
        | _ => st
      if attr = "sort" then pushCost scLinearithmic stA else stA
  | .ename id =>
      match DataStructureCosts.getCost id with
      | some c => pushCost c st
      | none => st
  | _ => st

/-- Recursion detection of `EnhancedCodeVisitor.visit_Call`
(`enhanced_analyzer.py` lines 271-291): a call is self-referential when
it names the scope's base name directly or as `self.<base>`; it then
increments the branching factor and runs the reduction analysis. -/
def visitCallRecursion (f : PyExpr) (args : List PyExpr) (st : EnhancedCodeVisitor) :
    EnhancedCodeVisitor :=
  match st.funcName with
  | some fn =>
      let base := lastComponent fn
      let isRec : Bool :=
        match f with
        | .ename id => id == base
        | .eattr (.ename obj) attr => obj == "self" && attr == base
        | _ => false
      if isRec then
        analyzeReduction args
          { st with recursionInfo := { st.recursionInfo with
              branchingFactor := st.recursionInfo.branchingFactor + 1 } }
      else st
  | none => st

/-- Merge of a nested scope's characteristics into the parent
(`EnhancedCodeVisitor.visit_FunctionDef`, `enhanced_analyzer.py` lines
77-89): branching factor by "greater wins", reduction pattern and
recurrence shape by "truthy nested value wins", mutable-state flags by
or. -/
def mergeNested (nested st : EnhancedCodeVisitor) : EnhancedCodeVisitor :=
  let st1 :=
    if 0 < nested.recursionInfo.branchingFactor then
      let bf :=
        if st.recursionInfo.branchingFactor < nested.recursionInfo.branchingFactor then
          nested.recursionInfo.branchingFactor
        else st.recursionInfo.branchingFactor
      let red :=
        if pyStrTruthy nested.recursionInfo.problemReduction then
          nested.recursionInfo.problemReduction
        else st.recursionInfo.problemReduction
      let rt :=
        if pyStrTruthy nested.recursionInfo.recurrenceType then
          nested.recursionInfo.recurrenceType
        else st.recursionInfo.recurrenceType
      { st with recursionInfo := { st.recursionInfo with
          branchingFactor := bf, problemReduction := red, recurrenceType := rt } }
    else st
  let st2 := if nested.hasMutableState then { st1 with hasMutableState := true } else st1
  if nested.hasUndoOperations then { st2 with hasUndoOperations := true } else st2

/-- Reset of the mutable-state flags at scope entry
(`visit_FunctionDef`, `enhanced_analyzer.py` lines 110-111). -/
def resetFlags (st : EnhancedCodeVisitor) : EnhancedCodeVisitor :=
  { st with hasMutableState := false, hasUndoOperations := false }

/-- Restore of the mutable-state flags at scope exit
(`visit_FunctionDef`, `enhanced_analyzer.py` lines 117-118). -/
def restoreFlags (before after : EnhancedCodeVisitor) : EnhancedCodeVisitor :=
  { after with
    hasMutableState := before.hasMutableState
    hasUndoOperations := before.hasUndoOperations }

/-- A fresh `EnhancedCodeVisitor(func_name)`. -/
def initVisitor (funcName : String) : EnhancedCodeVisitor :=
  { funcName := some funcName }

mutual
/-- One step of `EnhancedCodeVisitor.visit`, per statement kind.
Statement kinds without a `visit_` method (`return`, expression
statements) get the generic traversal of their children; `visit_Assign`
and `visit_AugAssign` do not call `generic_visit` in the source, so
their children are not traversed.  A `FunctionDef` different from the
analyzed scope is visited by a fresh visitor whose result is merged
(`visit_FunctionDef`); the analyzed scope itself resets and restores
the mutable-state flags around the body traversal. -/
def visitStmt (s : PyStmt) (st : EnhancedCodeVisitor) : EnhancedCodeVisitor :=
  match s with
  | .sfunc name body =>
      match st.funcName with
      | some fn =>
          if name = lastComponent fn then
            restoreFlags st (visitStmts body (resetFlags st))
          else
            mergeNested
              (restoreFlags (initVisitor (fn ++ "." ++ name))
                (visitStmts body (resetFlags (initVisitor (fn ++ "." ++ name))))) st
      | none => restoreFlags st (visitStmts body (resetFlags st))
  | .sfor target iter body =>
      let depth1 := st.currentLoopDepth + 1
      let p := classifyForIter iter
      let loop : LoopInfo := { boundVar := p.1, boundType := p.2, isNested := decide (1 < depth1) }
      let st1 := { st with currentLoopDepth := depth1, loops := st.loops ++ [loop] }
      let st2 := visitStmts body (visitExpr iter (visitExpr target st1))
      { st2 with currentLoopDepth := depth1 }
  | .swhile test body =>
      let depth1 := st.currentLoopDepth + 1
      let flags := binSearchStmts body {}
      let isBS := flags.hasMid && (flags.hasLeft || flags.hasRight)
      let bt : Option String :=
        if whileBodyDivides body then some "log n"
        else if isBS then some "log n" else none
      let loop : LoopInfo := { boundType := bt, isNested := decide (1 < depth1) }
      let st1 := { st with
        currentLoopDepth := depth1
        loops := st.loops ++ [loop]
        hasBinarySearchPattern := st.hasBinarySearchPattern || isBS }
      let st2 := visitStmts body (visitExpr test st1)
      { st2 with currentLoopDepth := depth1 }
  | .sif _ body orelse =>
      let st1 := visitStmts body { st with branchComplexities := [] }
      let st2 := visitStmts orelse st1
      { st2 with branchComplexities := st.branchComplexities }
  | .sreturn v =>
      match v with
      | some e => visitExpr e st
      | none => st
  | .sexpr e => visitExpr e st
  | .sassign targets v => targets.foldl (assignTargetStep v) st
  | .saugassign target _ _ => augassignVisit target st
  | .spass => st

/-- `generic_visit` over a statement list. -/
def visitStmts (l : List PyStmt) (st : EnhancedCodeVisitor) : EnhancedCodeVisitor :=
  match l with
  | [] => st
  | s :: rest => visitStmts rest (visitStmt s st)

/-- Generic traversal of one expression, dispatching `visit_Call` on
call nodes and recursing through children everywhere else.  The call
case is `EnhancedCodeVisitor.visit_Call`: cost collection, recursion
detection, then `generic_visit` called twice (the duplicated call at
`enhanced_analyzer.py` lines 293-296 is kept faithfully). -/
def visitExpr (e : PyExpr) (st : EnhancedCodeVisitor) : EnhancedCodeVisitor :=
  match e with
  | .ecall f args =>
      let st2 := visitCallRecursion f args (visitCallCosts f st)
      let st3 := visitExprs args (visitExpr f st2)
      visitExprs args (visitExpr f st3)
  | .ename _ => st
  | .econst _ => st
  | .ebinop _ l r => visitExpr r (visitExpr l st)
  | .eattr v _ => visitExpr v st
  | .esubscript v => visitExpr v st
  | .elist elts => visitExprs elts st
  | .ecompare l rs => visitExprs rs (visitExpr l st)

/-- Generic traversal over an expression list. -/
def visitExprs (l : List PyExpr) (st : EnhancedCodeVisitor) : EnhancedCodeVisitor :=
  match l with
  | [] => st
  | e :: rest => visitExprs rest (visitExpr e st)
end

/-- The non-nested path of `EnhancedCodeVisitor.visit_FunctionDef`
(`enhanced_analyzer.py` lines 93-118): reset the mutable-state flags,
traverse the body, then restore the flags to their previous values.
(The saved `prev_loops` is never restored in the source, and the loop
list is threaded through unchanged.) -/
def funcBody (body : List PyStmt) (st : EnhancedCodeVisitor) : EnhancedCodeVisitor :=
  restoreFlags st (visitStmts body (resetFlags st))

/-- `ASTAnalyzer.visit_FunctionDef`'s per-scope extraction: a fresh
`EnhancedCodeVisitor(full_name)` visiting the function node, which
always takes the non-nested path because the node's own name is the last
component of its qualified name. -/
def analyzeScope (fullName : String) (body : List PyStmt) : EnhancedCodeVisitor :=
  visitStmt (.sfunc (lastComponent fullName) body) { funcName := some fullName }

/-!
## The complexity composer

`compute_time_complexity` and `compute_space_complexity` from
`enhanced_analyzer.py`, translated statement by statement. -/

/-- Python `x or "default"` on an optional string. -/
def pyStrOr (s : Option String) (dflt : String) : String :=
  match s with
  | none => dflt
  | some v => if v = "" then dflt else v

/-- The built-in-operation scan at the top of `compute_time_complexity`
(lines 394-399): return the first linearithmic cost immediately
(`Sum.inl`), otherwise fold the costs into the accumulator with `add`
(`Sum.inr`). -/
def scanCosts (cs : List SymbolicComplexity) (acc : SymbolicComplexity) :
    SymbolicComplexity ⊕ SymbolicComplexity :=
  match cs with
  | [] => .inr acc
  | c :: rest =>
      if c.exprType = .linearithmic then .inl c else scanCosts rest (acc.add c)

/-- The recursion block of `compute_time_complexity` (lines 407-474):
starting from the cost accumulator `acc`, the block reassigns the
complexity from the recurrence solver (the `branching_factor = 0` arm
is the source's `pass`, which keeps `acc`), then adds any declared
work per level. -/
def recursionComplexity (v : EnhancedCodeVisitor) (acc : SymbolicComplexity) :
    SymbolicComplexity :=
  let recurrenceType := pyStrOr v.recursionInfo.recurrenceType "linear"
  let hasLoopInRecursion := decide (v.loops ≠ [])
  let c :=
    if 2 ≤ v.recursionInfo.branchingFactor then
      if v.hasMutableState then
        if hasLoopInRecursion then scFactorial
        else if v.hasUndoOperations then
          RecurrenceSolver.solve "backtracking" 2 "n-1" none
        else
          RecurrenceSolver.solve "backtracking" v.recursionInfo.branchingFactor "n-1" none
      else
        if v.recursionInfo.problemReduction = some "n/2" then
          RecurrenceSolver.solve "divide_conquer" v.recursionInfo.branchingFactor
            (pyStrOr v.recursionInfo.problemReduction "n-1") (some scLinear)
        else
          RecurrenceSolver.solve recurrenceType v.recursionInfo.branchingFactor
            (pyStrOr v.recursionInfo.problemReduction "n-1") none
    else if v.recursionInfo.branchingFactor = 1 then
      if hasLoopInRecursion ∧ v.hasMutableState then scFactorial
      else
        RecurrenceSolver.solve recurrenceType 1
          (pyStrOr v.recursionInfo.problemReduction "n-1") none
    else acc
  match v.recursionInfo.workPerLevel with
  | some w => c.add w
  | none => c

/-- Whether one loop bound multiplies as linear in the nested-loop fold
(lines 516-520): bound `"n"`, unset bound, or bound `"m"`. -/
def nestedBoundLinear (bt : Option String) : Bool :=
  bt = some "n" ∨ bt = none ∨ bt = some "m"

/-- The loop block of `compute_time_complexity` (lines 481-539):
sequential loops combine by `max`, nested loops multiply every recorded
loop, and a loop over a different dimension (`"m"`) forces the
multivariate result. -/
def loopComplexity (v : EnhancedCodeVisitor) : SymbolicComplexity :=
  let nestedLoops := v.loops.filter (·.isNested)
  let seqComplexity :=
    v.loops.filter (fun l => !l.isNested) |>.foldl
      (fun acc l =>
        if l.boundType = some "n" then acc.max scLinear
        else if l.boundType = some "log n" then acc.max scLogarithmic
        else if l.boundType = some "constant" then acc
        else acc.max scLinear)
      scConstant
  if nestedLoops ≠ [] then
    let nestedComplexity :=
      v.loops.foldl
        (fun acc l =>
          if nestedBoundLinear l.boundType then acc.multiply scLinear
          else if l.boundType = some "log n" then acc.multiply scLogarithmic
          else acc)
        scConstant
    let hasM := v.loops.any (fun l => l.boundType = some "m")
    if hasM then { exprType := .multivariate, vars := [("n", 1), ("m", 1)] }
    else nestedComplexity
  else seqComplexity

/-- `compute_time_complexity` (`enhanced_analyzer.py` lines 387-545). -/
def compute_time_complexity (v : EnhancedCodeVisitor) : SymbolicComplexity :=
  match scanCosts v.operationCosts scConstant with
  | .inl c => c
  | .inr costAcc =>
      if v.hasBinarySearchPattern ∧ v.recursionInfo.branchingFactor = 0 then
        scLogarithmic
      else
        let complexity :=
          if 0 < v.recursionInfo.branchingFactor then recursionComplexity v costAcc
          else costAcc
        let recursionDominates :=
          0 < v.recursionInfo.branchingFactor ∧ complexity.exprType ≠ .constant
        let complexity :=
          if ¬recursionDominates ∧ v.loops ≠ [] then complexity.max (loopComplexity v)
          else complexity
        v.branchComplexities.foldl (fun acc b => acc.max b) complexity

/-- `compute_space_complexity` (`enhanced_analyzer.py` lines 548-571):
recursion-stack depth by reduction pattern, then `max` with any tracked
auxiliary-structure costs. -/
def compute_space_complexity (v : EnhancedCodeVisitor) : SymbolicComplexity :=
  let space :=
    if 0 < v.recursionInfo.branchingFactor then
      if v.recursionInfo.problemReduction = some "n-1" then scLinear
      else if v.recursionInfo.problemReduction = some "n/2" then scLogarithmic
      else scLinear
    else scConstant
  v.auxiliarySpace.foldl (fun acc a => acc.max a) space

/-!
## Result assembly and per-scope fault handling

`FunctionAnalysis`, and the exception-handling structure of
`ASTAnalyzer.visit_FunctionDef` / `analyze_source` in
`src/extension/analyzer/ast_parser.py`.  A raised Python exception in an
analyzer is modelled as an `Option`-valued outcome (`none` = the
analyzer raised). -/

/-- `FunctionAnalysis` (`src/extension/analyzer/models.py`). -/
structure FunctionAnalysis where
  name : String
  time_complexity : String
  space_complexity : String
  max_loop_depth : Nat
  recursive_calls : Nat
deriving DecidableEq, Repr

/-- The per-scope analysis of `ASTAnalyzer.visit_FunctionDef`
(`ast_parser.py` lines 450-476): the enhanced analyzer is tried first
inside `try`; on any exception (`enhanced = none`) the fallback
heuristic analyzer runs *outside* any handler, so a fault there
(`fallback = none`) propagates to the caller. -/
def scopeAnalysis (enhanced fallback : Option FunctionAnalysis) :
    Option FunctionAnalysis :=
  match enhanced with
  | some r => some r
  | none => fallback

/-- The batch walk of `ASTAnalyzer` over the declared scopes: each scope
appends its `scopeAnalysis` result; an unhandled exception (`none`)
aborts the walk, so no result list is produced at all (`analyze_source`
has no handler around `analyzer.visit(tree)`, and `main` catches only
`SyntaxError`). -/
def analyzeBatch (scopes : List (Option FunctionAnalysis × Option FunctionAnalysis)) :
    Option (List FunctionAnalysis) :=
  match scopes with
  | [] => some []
  | (e, f) :: rest =>
      match scopeAnalysis e f with
      | some r => (analyzeBatch rest).map (fun l => r :: l)
      | none => none

/-- Modelled from the spec: the sentinel result the specification
prescribes for a scope whose analysis fails
(`time="O(?)"`, `space="O(?)"`, zero counts).  No such sentinel exists
anywhere under `src/`; this definition follows the spec's words so the
claim can be compared against the code's fault handling. -/
def specSentinel (name : String) : FunctionAnalysis :=
  { name := name, time_complexity := "O(?)", space_complexity := "O(?)"
    max_loop_depth := 0, recursive_calls := 0 }

/-- The fallback heuristic `estimate_time_complexity`
(`src/extension/analyzer/complexity.py` lines 1-86), without the
optional `enhanced_visitor` argument, which is `None` on the fallback
path of `ASTAnalyzer`.  Translated rule for rule; nested Python `if`
blocks are flattened into the equivalent first-match chain. -/
def estimate_time_complexity (loop_depth recursive_calls max_single_path : Nat)
    (has_dividing_recursion has_dividing_loop has_loop_with_recursion
      has_mutually_exclusive_recursion has_builtin_sort
      has_binary_search_pattern : Bool) : String :=
  if has_builtin_sort then "O(n log n)"
  else if has_binary_search_pattern ∧ loop_depth = 1 ∧ recursive_calls = 0 then "O(log n)"
  else if has_dividing_recursion ∧ 0 < recursive_calls ∧ has_mutually_exclusive_recursion then
    "O(log n)"
  else if has_dividing_recursion ∧ 0 < recursive_calls ∧ max_single_path ≤ 1 then "O(log n)"
  else if 2 ≤ max_single_path ∧ has_dividing_recursion then "O(n log n)"
  else if 2 ≤ max_single_path ∧ ¬has_dividing_recursion then "O(2^n)"
  else if has_loop_with_recursion ∧ has_dividing_recursion then "O(n log n)"
  else if 1 ≤ loop_depth ∧ 0 < recursive_calls ∧ has_dividing_recursion then "O(n log n)"
  else if has_dividing_recursion ∧ 0 < recursive_calls ∧ max_single_path ≤ 1 then "O(log n)"
  else if has_dividing_loop ∧ loop_depth = 1 ∧ recursive_calls = 0 then "O(log n)"
  else if has_binary_search_pattern ∧ loop_depth = 1 ∧ recursive_calls = 0 then "O(log n)"
  else if 2 ≤ max_single_path then "O(2^n)"
  else if recursive_calls = 1 ∧ ¬has_dividing_recursion ∧ loop_depth = 0 then "O(n)"
  else if loop_depth = 0 then "O(1)"
  else if loop_depth = 1 then "O(n)"
  else if loop_depth = 2 then "O(n^2)"
  else "O(n^" ++ toString loop_depth ++ ")"

/-- The fallback heuristic `estimate_space_complexity`
(`complexity.py` lines 89-105): `O(n)` for any recursion, else `O(1)`. -/
def estimate_space_complexity (recursive_calls _max_loop_depth : Nat) : String :=
  if 1 ≤ recursive_calls then "O(n)" else "O(1)"

/-- The fallback analyzer's result for a one-loop, non-recursive scope
(`CodeVisitor` counts one loop and no recursive calls; both estimators
are applied as in the `except` branch of `ASTAnalyzer.visit_FunctionDef`). -/
def fallbackOneLoopResult : FunctionAnalysis :=
  { name := "f"
    time_complexity :=
      estimate_time_complexity 1 0 0 false false false false false false
    space_complexity := estimate_space_complexity 0 1
    max_loop_depth := 1
    recursive_calls := 0 }

/-!
## Concrete test programs -/

/-- Test program: `if n <= 1: return g(n - 1) else: return g(n - 1)` —
one self-referential call in each of two mutually exclusive branches. -/
def ifElseBothCall : List PyStmt :=
  [.sif (.ecompare (.ename "n") [.econst 1])
    [.sreturn (some (.ecall (.ename "g") [.ebinop .sub (.ename "n") (.econst 1)]))]
    [.sreturn (some (.ecall (.ename "g") [.ebinop .sub (.ename "n") (.econst 1)]))]]

/-- Test program: the same conditional with the self-call only in the
`if` branch. -/
def ifBranchCall : List PyStmt :=
  [.sif (.ecompare (.ename "n") [.econst 1])
    [.sreturn (some (.ecall (.ename "g") [.ebinop .sub (.ename "n") (.econst 1)]))] []]

/-- Test program: the same conditional with the self-call only in the
`else` branch. -/
def elseBranchCall : List PyStmt :=
  [.sif (.ecompare (.ename "n") [.econst 1]) []
    [.sreturn (some (.ecall (.ename "g") [.ebinop .sub (.ename "n") (.econst 1)]))]]

/-- Test program (naive Fibonacci shape):
`if n <= 1: return n` then `return fib(n - 1) + fib(n - 1)` — two
self-calls, each with the argument reduced by one. -/
def fibBody : List PyStmt :=
  [.sif (.ecompare (.ename "n") [.econst 1]) [.sreturn (some (.ename "n"))] [],
   .sreturn (some (.ebinop .add
     (.ecall (.ename "fib") [.ebinop .sub (.ename "n") (.econst 1)])
     (.ecall (.ename "fib") [.ebinop .sub (.ename "n") (.econst 1)])))]

/-- Test program (binary search by recursion):
`if n <= 1: return 0` then `return bs(n // 2)` — one self-call with the
argument halved. -/
def bsBody : List PyStmt :=
  [.sif (.ecompare (.ename "n") [.econst 1]) [.sreturn (some (.econst 0))] [],
   .sreturn (some (.ecall (.ename "bs") [.ebinop .floordiv (.ename "n") (.econst 2)]))]

/-- Test program: a bounded counting loop followed by `arr.sort()`. -/
def loopThenSortBody : List PyStmt :=
  [.sfor (.ename "i") (.ecall (.ename "range") [.ename "n"]) [.spass],
   .sexpr (.ecall (.eattr (.ename "arr") "sort") [])]

/-!
## Predicates used by the theorems -/

/-- The combinations explicitly handled by `SymbolicComplexity.multiply`
before its `max` fallback (one disjunct per guard). -/
def multiplyHandled (a b : SymbolicComplexity) : Prop :=
  a.exprType = .constant ∨ b.exprType = .constant ∨
  (a.exprType = .linear ∧ b.exprType = .linear ∧ a.baseVar = b.baseVar) ∨
  (a.exprType = .linear ∧ b.exprType = .logarithmic ∧ a.baseVar = b.baseVar) ∨
  (a.exprType = .linear ∧ b.exprType = .linear ∧ a.baseVar ≠ b.baseVar) ∨
  (a.exprType = .polynomial ∧ b.exprType = .polynomial ∧ a.baseVar = b.baseVar)

/-- Progress of the recursion descriptor along the traversal: the
branching factor never decreases, and the reduction pattern changes
only in states whose branching factor is at least one. -/
def RecursionProgress (st st2 : EnhancedCodeVisitor) : Prop :=
  st.recursionInfo.branchingFactor ≤ st2.recursionInfo.branchingFactor ∧
  (st2.recursionInfo.problemReduction = st.recursionInfo.problemReduction ∨
    1 ≤ st2.recursionInfo.branchingFactor)

/-!
## Helper lemmas -/

/-- `complexityOrder` is injective: each class has a distinct rank. -/
lemma complexityOrder_injective (s t : ComplexityType)
    (h : complexityOrder s = complexityOrder t) : s = t := by
  revert h
  cases s <;> cases t <;> decide

/-- `max` picks the operand whose class rank is the numeric maximum. -/
lemma max_order (a b : SymbolicComplexity) :
    complexityOrder (a.max b).exprType =
      Nat.max (complexityOrder a.exprType) (complexityOrder b.exprType) := by
  unfold SymbolicComplexity.max
  split
  · exact (Nat.max_eq_left (by assumption)).symm
  · exact (Nat.max_eq_right (Nat.le_of_not_le (by assumption))).symm

/-- `max` returns one of its two operands. -/
lemma max_eq_or (a b : SymbolicComplexity) : a.max b = a ∨ a.max b = b := by
  unfold SymbolicComplexity.max
  split
  · exact Or.inl rfl
  · exact Or.inr rfl

/-- `RecursionProgress` is reflexive. -/
lemma prog_refl (st : EnhancedCodeVisitor) : RecursionProgress st st :=
  ⟨Nat.le_refl _, Or.inl rfl⟩

/-- A step that leaves the recursion descriptor unchanged makes
progress. -/
lemma prog_of_ri_eq {st st2 : EnhancedCodeVisitor}
    (h : st2.recursionInfo = st.recursionInfo) : RecursionProgress st st2 :=
  ⟨by rw [h], Or.inl (by rw [h])⟩

/-- `RecursionProgress` is transitive. -/
lemma prog_trans {a b c : EnhancedCodeVisitor}
    (h1 : RecursionProgress a b) (h2 : RecursionProgress b c) : RecursionProgress a c := by
  obtain ⟨m1, r1⟩ := h1
  obtain ⟨m2, r2⟩ := h2
  refine ⟨Nat.le_trans m1 m2, ?_⟩
  rcases r2 with e2 | b2
  · rcases r1 with e1 | b1
    · exact Or.inl (e2.trans e1)
    · exact Or.inr (by omega)
  · exact Or.inr b2

/-- The reduction analysis never changes the branching factor. -/
lemma analyzeReductionArg_bf (a : PyExpr) (st : EnhancedCodeVisitor) :
    (analyzeReductionArg a st).recursionInfo.branchingFactor =
      st.recursionInfo.branchingFactor := by
  unfold analyzeReductionArg
  repeat' split
  all_goals rfl

/-- The reduction analysis over a whole argument list never changes the
branching factor. -/
lemma analyzeReduction_bf (args : List PyExpr) (st : EnhancedCodeVisitor) :
    (analyzeReduction args st).recursionInfo.branchingFactor =
      st.recursionInfo.branchingFactor := by
  induction args generalizing st with
  | nil => rfl
  | cons a rest ih =>
      show (analyzeReduction rest (analyzeReductionArg a st)).recursionInfo.branchingFactor = _
      rw [ih, analyzeReductionArg_bf]

/-- Cost collection never touches the recursion descriptor. -/
lemma visitCallCosts_ri (f : PyExpr) (st : EnhancedCodeVisitor) :
    (visitCallCosts f st).recursionInfo = st.recursionInfo := by
  unfold visitCallCosts pushCost
  repeat' split
  all_goals rfl

/-- Recursion detection makes progress: when the call is
self-referential the branching factor strictly increases (so reaches at
least one), otherwise nothing changes. -/
lemma visitCallRecursion_prog (f : PyExpr) (args : List PyExpr)
    (st : EnhancedCodeVisitor) : RecursionProgress st (visitCallRecursion f args st) := by
  unfold visitCallRecursion
  split
  · dsimp only
    split
    · refine ⟨?_, Or.inr ?_⟩ <;> rw [analyzeReduction_bf] <;> dsimp only <;> omega
    · exact prog_refl st
  · exact prog_refl st

/-- Merging a nested scope's profile makes progress: the reduction
pattern is only overwritten inside the branch where the merged
branching factor is positive. -/
lemma mergeNested_prog (nested st : EnhancedCodeVisitor) :
    RecursionProgress st (mergeNested nested st) := by
  unfold mergeNested RecursionProgress
  split_ifs <;> simp_all <;> omega

/-- `visit_Assign` never touches the recursion descriptor. -/
lemma assignTargetStep_ri (v t : PyExpr) (st : EnhancedCodeVisitor) :
    (assignTargetStep v st t).recursionInfo = st.recursionInfo := by
  unfold assignTargetStep
  repeat' split
  all_goals rfl

/-- The `visit_Assign` fold never touches the recursion descriptor. -/
lemma assignFold_ri (v : PyExpr) (targets : List PyExpr) (st : EnhancedCodeVisitor) :
    (targets.foldl (assignTargetStep v) st).recursionInfo = st.recursionInfo := by
  induction targets generalizing st with
  | nil => rfl
  | cons t rest ih =>
      show (rest.foldl (assignTargetStep v) (assignTargetStep v st t)).recursionInfo = _
      rw [ih, assignTargetStep_ri]

/-- `visit_AugAssign` never touches the recursion descriptor. -/
lemma augassignVisit_ri (t : PyExpr) (st : EnhancedCodeVisitor) :
    (augassignVisit t st).recursionInfo = st.recursionInfo := by
  unfold augassignVisit
  repeat' split
  all_goals rfl

/-- Progress through a step sandwiched between two updates that keep
the recursion descriptor unchanged. -/
lemma prog_sandwich {st stPre mid post : EnhancedCodeVisitor}
    (hmid : RecursionProgress stPre mid)
    (hpost : post.recursionInfo = mid.recursionInfo)
    (hpre : stPre.recursionInfo = st.recursionInfo) : RecursionProgress st post :=
  prog_trans (prog_of_ri_eq hpre) (prog_trans hmid (prog_of_ri_eq hpost))

/-- Every traversal step makes `RecursionProgress`, for all four
mutually recursive traversal functions at once, by strong induction on
node size. -/
lemma visit_prog_all : ∀ n : Nat,
    (∀ s : PyStmt, sizeOf s ≤ n → ∀ st, RecursionProgress st (visitStmt s st)) ∧
    (∀ l : List PyStmt, sizeOf l ≤ n → ∀ st, RecursionProgress st (visitStmts l st)) ∧
    (∀ e : PyExpr, sizeOf e ≤ n → ∀ st, RecursionProgress st (visitExpr e st)) ∧
    (∀ l : List PyExpr, sizeOf l ≤ n → ∀ st, RecursionProgress st (visitExprs l st)) := by
  intro n
  induction n using Nat.strong_induction_on with
  | _ n ih =>
    have IHs : ∀ s2 : PyStmt, sizeOf s2 < n → ∀ st2,
        RecursionProgress st2 (visitStmt s2 st2) :=
      fun s2 h st2 => (ih (sizeOf s2) h).1 s2 (Nat.le_refl _) st2
    have IHsl : ∀ l2 : List PyStmt, sizeOf l2 < n → ∀ st2,
        RecursionProgress st2 (visitStmts l2 st2) :=
      fun l2 h st2 => (ih (sizeOf l2) h).2.1 l2 (Nat.le_refl _) st2
    have IHe : ∀ e2 : PyExpr, sizeOf e2 < n → ∀ st2,
        RecursionProgress st2 (visitExpr e2 st2) :=
      fun e2 h st2 => (ih (sizeOf e2) h).2.2.1 e2 (Nat.le_refl _) st2
    have IHel : ∀ l2 : List PyExpr, sizeOf l2 < n → ∀ st2,
        RecursionProgress st2 (visitExprs l2 st2) :=
      fun l2 h st2 => (ih (sizeOf l2) h).2.2.2 l2 (Nat.le_refl _) st2
    refine ⟨fun s hs st => ?_, fun l hl st => ?_, fun e he st => ?_, fun l hl st => ?_⟩
    · cases s with
      | sfunc name body =>
          simp only [PyStmt.sfunc.sizeOf_spec] at hs
          have hb : sizeOf body < n := by omega
          simp only [visitStmt]
          split
          · split
            · exact prog_sandwich (IHsl body hb (resetFlags st)) rfl rfl
            · exact mergeNested_prog _ st
          · exact prog_sandwich (IHsl body hb (resetFlags st)) rfl rfl
      | sfor target iter body =>
          simp only [PyStmt.sfor.sizeOf_spec] at hs
          have h1 : sizeOf target < n := by omega
          have h2 : sizeOf iter < n := by omega
          have h3 : sizeOf body < n := by omega
          simp only [visitStmt]
          exact prog_sandwich
            (prog_trans (IHe target h1 _)
              (prog_trans (IHe iter h2 _) (IHsl body h3 _))) rfl rfl
      | swhile test body =>
          simp only [PyStmt.swhile.sizeOf_spec] at hs
          have h1 : sizeOf test < n := by omega
          have h2 : sizeOf body < n := by omega
          simp only [visitStmt]
          exact prog_sandwich
            (prog_trans (IHe test h1 _) (IHsl body h2 _)) rfl rfl
      | sif t b1 b2 =>
          simp only [PyStmt.sif.sizeOf_spec] at hs
          have h1 : sizeOf b1 < n := by omega
          have h2 : sizeOf b2 < n := by omega
          simp only [visitStmt]
          exact prog_sandwich
            (prog_trans (IHsl b1 h1 _) (IHsl b2 h2 _)) rfl rfl
      | sreturn v =>
          cases v with
          | none => exact prog_refl st
          | some e =>
              simp only [PyStmt.sreturn.sizeOf_spec, Option.some.sizeOf_spec] at hs
              exact IHe e (by omega) st
      | sexpr e =>
          simp only [PyStmt.sexpr.sizeOf_spec] at hs
          exact IHe e (by omega) st
      | sassign targets v =>
          exact prog_of_ri_eq (assignFold_ri v targets st)
      | saugassign t op v =>
          exact prog_of_ri_eq (augassignVisit_ri t st)
      | spass => exact prog_refl st
    · cases l with
      | nil => exact prog_refl st
      | cons s rest =>
          simp only [List.cons.sizeOf_spec] at hl
          exact prog_trans (IHs s (by omega) st) (IHsl rest (by omega) _)
    · cases e with
      | ecall f args =>
          simp only [PyExpr.ecall.sizeOf_spec] at he
          have hf : sizeOf f < n := by omega
          have ha : sizeOf args < n := by omega
          simp only [visitExpr]
          exact prog_trans (prog_of_ri_eq (visitCallCosts_ri f st))
            (prog_trans (visitCallRecursion_prog f args _)
              (prog_trans (IHe f hf _)
                (prog_trans (IHel args ha _)
                  (prog_trans (IHe f hf _) (IHel args ha _)))))
      | ename id => exact prog_refl st
      | econst v => exact prog_refl st
      | ebinop op l r =>
          simp only [PyExpr.ebinop.sizeOf_spec] at he
          exact prog_trans (IHe l (by omega) st) (IHe r (by omega) _)
      | eattr v a =>
          simp only [PyExpr.eattr.sizeOf_spec] at he
          exact IHe v (by omega) st
      | esubscript v =>
          simp only [PyExpr.esubscript.sizeOf_spec] at he
          exact IHe v (by omega) st
      | elist elts =>
          simp only [PyExpr.elist.sizeOf_spec] at he
          exact IHel elts (by omega) st
      | ecompare lhs rs =>
          simp only [PyExpr.ecompare.sizeOf_spec] at he
          exact prog_trans (IHe lhs (by omega) st) (IHel rs (by omega) _)
    · cases l with
      | nil => exact prog_refl st
      | cons e rest =>
          simp only [List.cons.sizeOf_spec] at hl
          exact prog_trans (IHe e (by omega) st) (IHel rest (by omega) _)

/-!
## Claim theorems -/

/-- C1: for recurrence shape `"linear"`, `RecurrenceSolver.solve` maps
an `"n-1"` reduction with branching factor 1 to `Linear`, an `"n-1"`
reduction with branching factor at least 2 to `Exponential`, and any
reduction starting with `"n/"` to `Logarithmic` for every branching
factor at least 1 — the reduction-pattern check is decided inside the
`"linear"` branch, before the generic `branchingFactor ≥ 2 ⇒
Exponential` fallback of `solveTail`. -/
theorem solve_linear_claim :
    (∀ w, RecurrenceSolver.solve "linear" 1 "n-1" w = scLinear) ∧
    (∀ bf w, 2 ≤ bf → RecurrenceSolver.solve "linear" bf "n-1" w = scExponential) ∧
    (∀ bf red w, 1 ≤ bf → pyStartsWith red "n/" = true →
      RecurrenceSolver.solve "linear" bf red w = scLogarithmic) := by
  refine ⟨fun w => by simp [RecurrenceSolver.solve], fun bf w h => ?_, fun bf red w h1 h2 => ?_⟩
  · have hne : bf ≠ 1 := by omega
    simp [RecurrenceSolver.solve, hne, h]
  · have hne : red ≠ "n-1" := by
      intro he
      rw [he] at h2
      exact absurd h2 (by decide)
    simp [RecurrenceSolver.solve, hne, h2]

/-- Witness for C1 at branching factors 1, 3 and 2. -/
theorem solve_linear_claim_witness :
    RecurrenceSolver.solve "linear" 1 "n-1" none = scLinear ∧
    RecurrenceSolver.solve "linear" 3 "n-1" none = scExponential ∧
    RecurrenceSolver.solve "linear" 2 "n/2" none = scLogarithmic :=
  ⟨solve_linear_claim.1 none, solve_linear_claim.2.1 3 none (by decide),
    solve_linear_claim.2.2 2 "n/2" none (by decide) (by decide)⟩

/-- C10: `RecurrenceSolver.solve` never returns a `Factorial`
complexity for any input — the factorial case guarded by
`branching_factor > 10` is shadowed by the earlier backtracking `n-1`
branches — while the composer `compute_time_complexity` does produce
`Factorial` for some profile (so factorial classification happens only
outside the solver). -/
theorem solve_never_factorial :
    (∀ rt bf red w, (RecurrenceSolver.solve rt bf red w).exprType ≠ .factorial) ∧
    (∃ v : EnhancedCodeVisitor, (compute_time_complexity v).exprType = .factorial) := by
  constructor
  · intro rt bf red w
    unfold RecurrenceSolver.solve solveTail
    split_ifs with h1 h2 h3 h4 h5 h6 h7 h8 h9 h10 h11 h12 h13 h14 h15
    all_goals try decide
    all_goals try (dsimp only; split_ifs <;> decide)
    all_goals
      (have hc : red = "n-1" ∧ 10 < bf := by assumption
       have hb : ¬(red = "n-1" ∧ 2 < bf) := by assumption
       exact absurd ⟨hc.1, by omega⟩ hb)
  · refine ⟨{ recursionInfo := { branchingFactor := 2 }
              hasMutableState := true
              loops := [{}] }, by decide⟩

/-- Witness for C10 at the input aimed at the factorial case
(`branching_factor = 11 > 10`): the solver still returns a
non-factorial class. -/
theorem solve_never_factorial_witness :
    (RecurrenceSolver.solve "backtracking" 11 "n-1" none).exprType ≠
      ComplexityType.factorial :=
  solve_never_factorial.1 "backtracking" 11 "n-1" none

/-- C7 counterexample: `Logarithmic.multiply(Linear)` on the same base
variable falls through to the `max` fallback and returns `Linear`, not
`Linearithmic` — the `Linear × Logarithmic → Linearithmic` case fires
only when the `Linear` operand is the receiver, so the operand orders
are not interchangeable. -/
theorem multiply_log_linear_cex :
    scLogarithmic.multiply scLinear = scLinear ∧
    (scLogarithmic.multiply scLinear).exprType ≠ ComplexityType.linearithmic ∧
    (scLinear.multiply scLogarithmic).exprType = ComplexityType.linearithmic := by
  decide

/-- C7 (amended): the `multiply` case table —
`multiply(Constant, x) = x`; `Linear × Linear` on the same variable
gives `Polynomial` of degree 2 and on different variables the
`Multivariate` value with exponent 1 each; `Linear × Logarithmic` on
the same variable gives `Linearithmic` when the `Linear` operand is the
receiver, while the reverse order falls back to `max` and returns the
`Linear` operand; `Polynomial × Polynomial` on the same variable adds
the degrees; and every unhandled combination returns `max`, whose class
rank is the larger of the two operands' ranks. -/
theorem multiply_case_table :
    (∀ a b : SymbolicComplexity, a.exprType = .constant → a.multiply b = b) ∧
    (∀ v d1 d2 vs1 vs2,
      SymbolicComplexity.multiply
          { exprType := .linear, baseVar := v, degree := d1, vars := vs1 }
          { exprType := .linear, baseVar := v, degree := d2, vars := vs2 } =
        { exprType := .polynomial, baseVar := v, degree := some 2 }) ∧
    (∀ v w d1 d2 vs1 vs2, v ≠ w →
      SymbolicComplexity.multiply
          { exprType := .linear, baseVar := v, degree := d1, vars := vs1 }
          { exprType := .linear, baseVar := w, degree := d2, vars := vs2 } =
        { exprType := .multivariate, vars := [(v, 1), (w, 1)] }) ∧
    (∀ v d1 d2 vs1 vs2,
      SymbolicComplexity.multiply
          { exprType := .linear, baseVar := v, degree := d1, vars := vs1 }
          { exprType := .logarithmic, baseVar := v, degree := d2, vars := vs2 } =
        { exprType := .linearithmic, baseVar := v }) ∧
    (∀ v d1 d2 vs1 vs2,
      SymbolicComplexity.multiply
          { exprType := .logarithmic, baseVar := v, degree := d1, vars := vs1 }
          { exprType := .linear, baseVar := v, degree := d2, vars := vs2 } =
        { exprType := .linear, baseVar := v, degree := d2, vars := vs2 }) ∧
    (∀ v k1 k2, k1 ≠ 0 → k2 ≠ 0 →
      SymbolicComplexity.multiply
          { exprType := .polynomial, baseVar := v, degree := some k1 }
          { exprType := .polynomial, baseVar := v, degree := some k2 } =
        { exprType := .polynomial, baseVar := v, degree := some (k1 + k2) }) ∧
    (∀ a b, ¬multiplyHandled a b →
      a.multiply b = a.max b ∧
      complexityOrder (a.max b).exprType =
        Nat.max (complexityOrder a.exprType) (complexityOrder b.exprType)) := by
  refine ⟨fun a b h => ?_, fun v d1 d2 vs1 vs2 => ?_, fun v w d1 d2 vs1 vs2 hvw => ?_,
    fun v d1 d2 vs1 vs2 => ?_, fun v d1 d2 vs1 vs2 => ?_, fun v k1 k2 h1 h2 => ?_,
    fun a b hn => ?_⟩
  · simp [SymbolicComplexity.multiply, h]
  · simp [SymbolicComplexity.multiply]
  · simp [SymbolicComplexity.multiply, hvw]
  · simp [SymbolicComplexity.multiply]
  · simp [SymbolicComplexity.multiply, SymbolicComplexity.max, complexityOrder]
  · simp [SymbolicComplexity.multiply, pyDegreeOrOne, h1, h2]
  · have n1 : ¬a.exprType = .constant := fun h => hn (Or.inl h)
    have n2 : ¬b.exprType = .constant := fun h => hn (Or.inr (Or.inl h))
    have n3 : ¬(a.exprType = .linear ∧ b.exprType = .linear ∧ a.baseVar = b.baseVar) :=
      fun h => hn (Or.inr (Or.inr (Or.inl h)))
    have n4 : ¬(a.exprType = .linear ∧ b.exprType = .logarithmic ∧ a.baseVar = b.baseVar) :=
      fun h => hn (Or.inr (Or.inr (Or.inr (Or.inl h))))
    have n5 : ¬(a.exprType = .linear ∧ b.exprType = .linear ∧ a.baseVar ≠ b.baseVar) :=
      fun h => hn (Or.inr (Or.inr (Or.inr (Or.inr (Or.inl h)))))
    have n6 : ¬(a.exprType = .polynomial ∧ b.exprType = .polynomial ∧ a.baseVar = b.baseVar) :=
      fun h => hn (Or.inr (Or.inr (Or.inr (Or.inr (Or.inr h)))))
    unfold SymbolicComplexity.multiply
    rw [if_neg n1, if_neg n2, if_neg n3, if_neg n4, if_neg n5, if_neg n6]
    exact ⟨rfl, max_order a b⟩

/-- Witness for C7's amended theorem at concrete operands. -/
theorem multiply_case_table_witness :
    scConstant.multiply scExponential = scExponential ∧
    scLinear.multiply scLinear = { exprType := .polynomial, baseVar := "n", degree := some 2 } ∧
    SymbolicComplexity.multiply { exprType := .linear, baseVar := "n" }
        { exprType := .linear, baseVar := "m" } =
      { exprType := .multivariate, vars := [("n", 1), ("m", 1)] } ∧
    SymbolicComplexity.multiply { exprType := .polynomial, baseVar := "n", degree := some 2 }
        { exprType := .polynomial, baseVar := "n", degree := some 3 } =
      { exprType := .polynomial, baseVar := "n", degree := some 5 } ∧
    scExponential.multiply scLinear = scExponential :=
  ⟨multiply_case_table.1 scConstant scExponential rfl,
    multiply_case_table.2.1 "n" none none [] [],
    multiply_case_table.2.2.1 "n" "m" none none [] [] (by decide),
    multiply_case_table.2.2.2.2.2.1 "n" 2 3 (by decide) (by decide),
    (multiply_case_table.2.2.2.2.2.2 scExponential scLinear
      (by unfold multiplyHandled; decide)).1⟩

/-- C8: `add` coincides with `max`; both are idempotent; `max` is
commutative at the level of the returned complexity class, always
returns one of its operands, is associative at the class level, and the
class ranks form the strictly increasing chain
Constant < Logarithmic < Sqrt < Linear < Linearithmic < Polynomial <
Exponential < Factorial < Multivariate. -/
theorem algebra_laws :
    (∀ a b : SymbolicComplexity, a.add b = a.max b) ∧
    (∀ x : SymbolicComplexity, x.add x = x ∧ x.max x = x) ∧
    (∀ a b : SymbolicComplexity,
      (a.max b).exprType = (b.max a).exprType ∧ (a.max b = a ∨ a.max b = b)) ∧
    (∀ a b c : SymbolicComplexity, ((a.max b).max c).exprType = (a.max (b.max c)).exprType) ∧
    (complexityOrder .constant < complexityOrder .logarithmic ∧
      complexityOrder .logarithmic < complexityOrder .sqrt ∧
      complexityOrder .sqrt < complexityOrder .linear ∧
      complexityOrder .linear < complexityOrder .linearithmic ∧
      complexityOrder .linearithmic < complexityOrder .polynomial ∧
      complexityOrder .polynomial < complexityOrder .exponential ∧
      complexityOrder .exponential < complexityOrder .factorial ∧
      complexityOrder .factorial < complexityOrder .multivariate) := by
  refine ⟨fun a b => rfl, fun x => ⟨?_, ?_⟩, fun a b => ⟨?_, max_eq_or a b⟩,
    fun a b c => ?_, by decide⟩
  · unfold SymbolicComplexity.add SymbolicComplexity.max
    split <;> rfl
  · unfold SymbolicComplexity.max
    split <;> rfl
  · apply complexityOrder_injective
    rw [max_order, max_order]
    exact Nat.max_comm _ _
  · apply complexityOrder_injective
    rw [max_order, max_order, max_order, max_order]
    exact Nat.max_assoc _ _ _

/-- C2 counterexample: for a scope whose two self-calls sit one in the
`if` branch and one in the `else` branch (per-branch counts 1 and 1),
the extractor reports `branchingFactor = 2` — the per-branch sum — not
the claimed maximum 1. -/
theorem branching_factor_max_cex :
    (analyzeScope "g" ifElseBothCall).recursionInfo.branchingFactor = 2 ∧
    (analyzeScope "g" ifBranchCall).recursionInfo.branchingFactor = 1 ∧
    (analyzeScope "g" elseBranchCall).recursionInfo.branchingFactor = 1 ∧
    (analyzeScope "g" ifElseBothCall).recursionInfo.branchingFactor ≠ Nat.max 1 1 := by
  decide

/-- C2 (amended): `visit_If` applies no max-reconciliation to the
recursion descriptor — a conditional's contribution is exactly the
sequential traversal of both branches, so `branchingFactor` sums the
per-branch self-call counts; on the one-call-per-branch program the
factor is the sum of the two single-branch factors. -/
theorem branching_factor_sums :
    (∀ (t : PyExpr) (b1 b2 : List PyStmt) (st : EnhancedCodeVisitor),
      (visitStmt (.sif t b1 b2) st).recursionInfo =
        (visitStmts b2 (visitStmts b1 { st with branchComplexities := [] })).recursionInfo) ∧
    (analyzeScope "g" ifElseBothCall).recursionInfo.branchingFactor =
      (analyzeScope "g" ifBranchCall).recursionInfo.branchingFactor +
        (analyzeScope "g" elseBranchCall).recursionInfo.branchingFactor := by
  exact ⟨fun t b1 b2 st => rfl, by decide⟩

/-- First linearithmic cost short-circuits the cost scan. -/
lemma scanCosts_linearithmic (cs : List SymbolicComplexity) (acc : SymbolicComplexity)
    (h : ∃ c ∈ cs, c.exprType = ComplexityType.linearithmic) :
    ∃ c, scanCosts cs acc = .inl c ∧ c.exprType = ComplexityType.linearithmic := by
  induction cs generalizing acc with
  | nil => obtain ⟨c, hc, _⟩ := h; exact absurd hc (List.not_mem_nil c)
  | cons d rest ih =>
      by_cases hd : d.exprType = ComplexityType.linearithmic
      · exact ⟨d, by simp [scanCosts, hd], hd⟩
      · obtain ⟨c, hc, hlin⟩ := h
        rcases List.mem_cons.1 hc with rfl | hmem
        · exact absurd hlin hd
        · obtain ⟨c2, he, h2⟩ := ih (acc.add d) ⟨c, hmem, hlin⟩
          exact ⟨c2, by simp [scanCosts, hd, he], h2⟩

/-- C4: if any observed built-in operation cost is `Linearithmic`, the
composed time complexity is `Linearithmic`, whatever the rest of the
profile holds — the cost scan returns before any loop or recursion
analysis runs. -/
theorem sort_cost_dominates (v : EnhancedCodeVisitor)
    (h : ∃ c ∈ v.operationCosts, c.exprType = ComplexityType.linearithmic) :
    (compute_time_complexity v).exprType = ComplexityType.linearithmic := by
  obtain ⟨c, he, hlin⟩ := scanCosts_linearithmic v.operationCosts scConstant h
  unfold compute_time_complexity
  rw [he]
  exact hlin

/-- Witness for C4: a bounded linear loop followed by `arr.sort()`
composes to `O(n log n)`, not `O(n)`. -/
theorem sort_cost_dominates_witness :
    (∃ c ∈ (analyzeScope "f" loopThenSortBody).operationCosts,
      c.exprType = ComplexityType.linearithmic) ∧
    (compute_time_complexity (analyzeScope "f" loopThenSortBody)).exprType =
      ComplexityType.linearithmic ∧
    (compute_time_complexity (analyzeScope "f" loopThenSortBody)).toBigO = "O(n log n)" :=
  ⟨by decide, sort_cost_dominates (analyzeScope "f" loopThenSortBody) (by decide), by decide⟩

/-- C5: a profile with exactly two self-calls, both reducing the
argument by one unit, and no other recognized structure (no loops, no
mutable state, no observed costs, no binary-search pattern, no branch
complexities, no auxiliary space) composes to time `O(2^n)` and space
`O(n)`. -/
theorem fibonacci_shape_spec (v : EnhancedCodeVisitor)
    (hri : v.recursionInfo = { branchingFactor := 2, problemReduction := some "n-1" })
    (hloops : v.loops = [])
    (hms : v.hasMutableState = false)
    (hcosts : v.operationCosts = [])
    (hbs : v.hasBinarySearchPattern = false)
    (hbr : v.branchComplexities = [])
    (haux : v.auxiliarySpace = []) :
    (compute_time_complexity v).toBigO = "O(2^n)" ∧
    (compute_space_complexity v).toBigO = "O(n)" := by
  rcases v with ⟨fn, loops, depth, ri, costs, aux, branches, ms, und, bsp⟩
  simp only at hri hloops hms hcosts hbs hbr haux
  subst hri hloops hms hcosts hbs hbr haux
  exact ⟨rfl, rfl⟩

/-- Witness for C5: the naive-Fibonacci program analyzed end to end. -/
theorem fibonacci_shape_spec_witness :
    (compute_time_complexity (analyzeScope "fib" fibBody)).toBigO = "O(2^n)" ∧
    (compute_space_complexity (analyzeScope "fib" fibBody)).toBigO = "O(n)" :=
  fibonacci_shape_spec (analyzeScope "fib" fibBody) (by decide) (by decide) (by decide)
    (by decide) (by decide) (by decide) (by decide)

/-- C6: a profile with exactly one self-call whose argument is halved
and no other recognized structure composes to time `O(log n)` and space
`O(log n)`; and in general, for any recursive profile the recursion
stack gives space `Linear` for reduction `"n-1"`, `Logarithmic` for
`"n/2"`, and `Linear` for any other reduction pattern. -/
theorem halving_recursion_spec :
    (∀ v : EnhancedCodeVisitor,
      v.recursionInfo = { branchingFactor := 1, problemReduction := some "n/2" } →
      v.loops = [] → v.hasMutableState = false → v.operationCosts = [] →
      v.hasBinarySearchPattern = false → v.branchComplexities = [] →
      v.auxiliarySpace = [] →
      (compute_time_complexity v).toBigO = "O(log n)" ∧
      (compute_space_complexity v).toBigO = "O(log n)") ∧
    (∀ v : EnhancedCodeVisitor, 0 < v.recursionInfo.branchingFactor →
      v.auxiliarySpace = [] →
      ((v.recursionInfo.problemReduction = some "n-1" →
          compute_space_complexity v = scLinear) ∧
        (v.recursionInfo.problemReduction = some "n/2" →
          compute_space_complexity v = scLogarithmic) ∧
        (v.recursionInfo.problemReduction ≠ some "n-1" →
          v.recursionInfo.problemReduction ≠ some "n/2" →
          compute_space_complexity v = scLinear))) := by
  constructor
  · intro v hri hloops hms hcosts hbs hbr haux
    rcases v with ⟨fn, loops, depth, ri, costs, aux, branches, ms, und, bsp⟩
    simp only at hri hloops hms hcosts hbs hbr haux
    subst hri hloops hms hcosts hbs hbr haux
    exact ⟨rfl, rfl⟩
  · intro v hbf haux
    unfold compute_space_complexity
    rw [haux, if_pos hbf]
    refine ⟨fun h => ?_, fun h => ?_, fun h1 h2 => ?_⟩
    · rw [if_pos h]
      rfl
    · have hne : v.recursionInfo.problemReduction ≠ some "n-1" := by
        rw [h]; decide
      rw [if_neg hne, if_pos h]
      rfl
    · rw [if_neg h1, if_neg h2]
      rfl

/-- Witness for C6: the binary-search-by-recursion program analyzed end
to end, plus the general space rule applied to its profile. -/
theorem halving_recursion_spec_witness :
    ((compute_time_complexity (analyzeScope "bs" bsBody)).toBigO = "O(log n)" ∧
      (compute_space_complexity (analyzeScope "bs" bsBody)).toBigO = "O(log n)") ∧
    compute_space_complexity (analyzeScope "bs" bsBody) = scLogarithmic :=
  ⟨halving_recursion_spec.1 (analyzeScope "bs" bsBody) (by decide) (by decide) (by decide)
      (by decide) (by decide) (by decide) (by decide),
    (halving_recursion_spec.2 (analyzeScope "bs" bsBody) (by decide) (by decide)).2.1
      (by decide)⟩

/-- C3 counterexample: when the enhanced analyzer faults on a scope
(`enhanced = none`), the scope's entry is the fallback heuristic result
— here the `O(n)`/`O(1)` one-loop result, not an `O(?)` sentinel — and
when the fallback faults as well, the whole batch aborts with no result
list, so a sibling scope's result is lost rather than preserved. -/
theorem scope_fault_sentinel_cex :
    scopeAnalysis none (some fallbackOneLoopResult) = some fallbackOneLoopResult ∧
    fallbackOneLoopResult ≠ specSentinel "f" ∧
    analyzeBatch
        [(some fallbackOneLoopResult, some fallbackOneLoopResult), (none, none)] = none := by
  decide

/-- C3 (amended): a fault in the enhanced analyzer is recovered by
falling back to the heuristic analyzer's result (never an `O(?)`
sentinel, which exists nowhere in the code); a scope whose fallback also
faults aborts the whole batch; and only when every scope's analysis
succeeds does the batch return one entry per declared scope. -/
theorem scope_fault_fallback_spec :
    (∀ e fb, scopeAnalysis (some e) fb = some e) ∧
    (∀ fb, scopeAnalysis none fb = fb) ∧
    (∀ pre post, analyzeBatch (pre ++ (none, none) :: post) = none) ∧
    (∀ scopes rs, analyzeBatch scopes = some rs → rs.length = scopes.length) := by
  refine ⟨fun e fb => rfl, fun fb => rfl, fun pre post => ?_, fun scopes rs h => ?_⟩
  · induction pre with
    | nil => rfl
    | cons p rest ih =>
        obtain ⟨e, f⟩ := p
        show (match scopeAnalysis e f with
          | some r => (analyzeBatch (rest ++ (none, none) :: post)).map (fun l => r :: l)
          | none => none) = none
        rw [ih]
        cases scopeAnalysis e f <;> rfl
  · induction scopes generalizing rs with
    | nil =>
        simp only [analyzeBatch, Option.some.injEq] at h
        simp [← h]
    | cons p rest ih =>
        obtain ⟨e, f⟩ := p
        simp only [analyzeBatch] at h
        cases hs : scopeAnalysis e f with
        | none => rw [hs] at h; exact absurd h (by simp)
        | some r =>
            rw [hs] at h
            cases hb : analyzeBatch rest with
            | none => rw [hb] at h; exact absurd h (by simp)
            | some l =>
                rw [hb] at h
                simp only [Option.map_some', Option.some.injEq] at h
                subst h
                simp [ih l hb]

/-- Witness for C3's amended theorem: a two-scope batch where the first
scope's enhanced analysis faults but the fallback answers, and the
second succeeds, returns exactly two entries. -/
theorem scope_fault_fallback_spec_witness :
    scopeAnalysis none (some fallbackOneLoopResult) = some fallbackOneLoopResult ∧
    ([fallbackOneLoopResult, fallbackOneLoopResult] : List FunctionAnalysis).length =
      [((none : Option FunctionAnalysis), some fallbackOneLoopResult),
        (some fallbackOneLoopResult, (none : Option FunctionAnalysis))].length :=
  ⟨scope_fault_fallback_spec.2.1 (some fallbackOneLoopResult),
    scope_fault_fallback_spec.2.2.2
      [(none, some fallbackOneLoopResult), (some fallbackOneLoopResult, none)]
      [fallbackOneLoopResult, fallbackOneLoopResult] (by decide)⟩

/-- C9: the extractor's invariant — every profile it produces, for any
scope body in the modelled fragment (nested definitions and their
merged characteristics included), has `problemReduction = none`
whenever `branchingFactor = 0`: the reduction pattern is only ever
recorded alongside at least one self-referential call. -/
theorem branching_zero_no_reduction (fullName : String) (body : List PyStmt)
    (h : (analyzeScope fullName body).recursionInfo.branchingFactor = 0) :
    (analyzeScope fullName body).recursionInfo.problemReduction = none := by
  have hp := (visit_prog_all
      (sizeOf (PyStmt.sfunc (lastComponent fullName) body))).1
    (PyStmt.sfunc (lastComponent fullName) body) (Nat.le_refl _)
    { funcName := some fullName }
  obtain ⟨_, hr⟩ := hp
  rcases hr with he | hb
  · exact he
  · rw [show (visitStmt (PyStmt.sfunc (lastComponent fullName) body)
        { funcName := some fullName }).recursionInfo.branchingFactor =
          (analyzeScope fullName body).recursionInfo.branchingFactor from rfl, h] at hb
    omega

/-- Witness for C9 at a scope with no recursion at all. -/
theorem branching_zero_no_reduction_witness :
    (analyzeScope "g" [PyStmt.spass]).recursionInfo.branchingFactor = 0 ∧
    (analyzeScope "g" [PyStmt.spass]).recursionInfo.problemReduction = none :=
  ⟨by decide, branching_zero_no_reduction "g" [PyStmt.spass] (by decide)⟩

